import Mathlib

/-!
# Verification of the SCD Type 2 pipeline (`scd_pipeline.py`)

A shallow embedding of the core of `scd_pipeline.py`: the fingerprint
function `generate_hash` (MD5 over the hyphen-joined stringified monitored
attributes) and the row-processing loop of `run_scd_pipeline` (lookup of the
current history version by business key, three-way classification
NEW / CHANGED / UNCHANGED, expire-then-insert mutation, single-transaction
commit/rollback).

Modelling conventions:
* SQLite scalar values are modelled by `Value` (NULL, INTEGER, TEXT).  REAL
  and BLOB storage classes are omitted: no claim under verification depends
  on float formatting or blobs.
* A row (Python `dict` obtained from `dict(row)`) is an association list
  from column name to value; `dict` access `row[k]` is `lookupVal`, which is
  `none` when the key is absent (Python raises `KeyError` there).
* SQL equality in `WHERE pk = ?` is `sqlEq`: a comparison involving NULL is
  never true, values of different storage classes are unequal.
* The history table is a `List HRow` in rowid (insertion) order; `fetchone`
  on the unordered `SELECT` is `List.find?`, i.e. the first row in table
  order; `INSERT` appends; the `UPDATE ... WHERE pk = ? AND is_current = 1`
  maps an expiry transformation over every matching row.
* `sqlite3.Error` raised by a `cursor.execute` inside the row loop is
  injected through an oracle `failAt : Nat → Bool` consulted once per
  statement executed by the loop, in program order; normal operation is the
  oracle `noFail`.  The durable (committed) state is returned next to the
  run result: on success the working state is committed, on any error the
  transaction is rolled back and the durable state is the pre-run table.
-/

set_option maxRecDepth 100000

/-- A SQLite scalar value as surfaced to Python by the `sqlite3` module
(restricted to the NULL, INTEGER and TEXT storage classes). -/
inductive Value where
  | null : Value
  | int : Int → Value
  | str : String → Value
deriving DecidableEq, Repr

/-- A row as a Python dict: an association list column-name ↦ value. -/
abbrev Row := List (String × Value)

/-- Python `row[k]` on a dict built from a cursor row: `none` models the
`KeyError` raised when the column is absent. -/
def lookupVal (row : Row) (k : String) : Option Value :=
  row.lookup k

/-- Python `str()` applied to a value returned by `sqlite3`:
`str(None) = "None"`, integers print in decimal, strings are themselves. -/
def pyStr : Value → String
  | Value.null => "None"
  | Value.int n => toString n
  | Value.str s => s

/-- Python `"-".join(parts)`. -/
def joinHyphen : List String → String
  | [] => ""
  | [s] => s
  | s :: rest => s ++ "-" ++ joinHyphen rest

/-! ## MD5 (`hashlib.md5(...).hexdigest()`)

A direct implementation of RFC 1321 over `Nat` byte lists, with 32-bit
words represented as naturals reduced modulo `2 ^ 32`. -/

/-- Truncate to a 32-bit word. -/
def w32 (n : Nat) : Nat := n % 4294967296

/-- 32-bit modular addition. -/
def add32 (a b : Nat) : Nat := (a + b) % 4294967296

/-- 32-bit bitwise complement (of a value below `2 ^ 32`). -/
def not32 (a : Nat) : Nat := Nat.xor a 4294967295

/-- 32-bit left rotation. -/
def rotl32 (x n : Nat) : Nat :=
  w32 (Nat.lor (Nat.shiftLeft (w32 x) n) (Nat.shiftRight (w32 x) (32 - n)))

/-- Per-step left-rotation amounts of MD5. -/
def md5s : List Nat :=
  [7, 12, 17, 22, 7, 12, 17, 22, 7, 12, 17, 22, 7, 12, 17, 22,
   5, 9, 14, 20, 5, 9, 14, 20, 5, 9, 14, 20, 5, 9, 14, 20,
   4, 11, 16, 23, 4, 11, 16, 23, 4, 11, 16, 23, 4, 11, 16, 23,
   6, 10, 15, 21, 6, 10, 15, 21, 6, 10, 15, 21, 6, 10, 15, 21]

/-- The 64 sine-derived additive constants of MD5. -/
def md5K : List Nat :=
  [0xd76aa478, 0xe8c7b756, 0x242070db, 0xc1bdceee,
   0xf57c0faf, 0x4787c62a, 0xa8304613, 0xfd469501,
   0x698098d8, 0x8b44f7af, 0xffff5bb1, 0x895cd7be,
   0x6b901122, 0xfd987193, 0xa679438e, 0x49b40821,
   0xf61e2562, 0xc040b340, 0x265e5a51, 0xe9b6c7aa,
   0xd62f105d, 0x02441453, 0xd8a1e681, 0xe7d3fbc8,
   0x21e1cde6, 0xc33707d6, 0xf4d50d87, 0x455a14ed,
   0xa9e3e905, 0xfcefa3f8, 0x676f02d9, 0x8d2a4c8a,
   0xfffa3942, 0x8771f681, 0x6d9d6122, 0xfde5380c,
   0xa4beea44, 0x4bdecfa9, 0xf6bb4b60, 0xbebfbc70,
   0x289b7ec6, 0xeaa127fa, 0xd4ef3085, 0x04881d05,
   0xd9d4d039, 0xe6db99e5, 0x1fa27cf8, 0xc4ac5665,
   0xf4292244, 0x432aff97, 0xab9423a7, 0xfc93a039,
   0x655b59c3, 0x8f0ccc92, 0xffeff47d, 0x85845dd1,
   0x6fa87e4f, 0xfe2ce6e0, 0xa3014314, 0x4e0811a1,
   0xf7537e82, 0xbd3af235, 0x2ad7d2bb, 0xeb86d391]

/-- Decode message word `g` (little-endian 32-bit) from a 64-byte chunk. -/
def md5Word (chunk : List Nat) (g : Nat) : Nat :=
  chunk.getD (4 * g) 0 + 256 * chunk.getD (4 * g + 1) 0 +
    65536 * chunk.getD (4 * g + 2) 0 + 16777216 * chunk.getD (4 * g + 3) 0

/-- One of the 64 MD5 steps, acting on the state `(A, B, C, D)`. -/
def md5Step (chunk : List Nat) (st : Nat × Nat × Nat × Nat) (i : Nat) :
    Nat × Nat × Nat × Nat :=
  let (a, b, c, d) := st
  let f :=
    if i < 16 then Nat.lor (Nat.land b c) (Nat.land (not32 b) d)
    else if i < 32 then Nat.lor (Nat.land d b) (Nat.land (not32 d) c)
    else if i < 48 then Nat.xor (Nat.xor b c) d
    else Nat.xor c (Nat.lor b (not32 d))
  let g :=
    if i < 16 then i
    else if i < 32 then (5 * i + 1) % 16
    else if i < 48 then (3 * i + 5) % 16
    else (7 * i) % 16
  let tmp := add32 (add32 (add32 f a) (md5K.getD i 0)) (md5Word chunk g)
  (d, add32 b (rotl32 tmp (md5s.getD i 0)), b, c)

/-- Process one 64-byte chunk, updating the running digest state. -/
def md5Chunk (st : Nat × Nat × Nat × Nat) (chunk : List Nat) :
    Nat × Nat × Nat × Nat :=
  let (a0, b0, c0, d0) := st
  let (a, b, c, d) := (List.range 64).foldl (md5Step chunk) (a0, b0, c0, d0)
  (add32 a0 a, add32 b0 b, add32 c0 c, add32 d0 d)

/-- Split a byte list into chunks of 64 bytes (fuel-based structural
recursion; `fuel = l.length` always suffices since every step consumes at
least one byte). -/
def chunksOf64Go : Nat → List Nat → List (List Nat)
  | 0, _ => []
  | _, [] => []
  | fuel + 1, x :: xs => (x :: xs).take 64 :: chunksOf64Go fuel ((x :: xs).drop 64)

/-- Split a byte list into chunks of 64 bytes. -/
def chunksOf64 (l : List Nat) : List (List Nat) :=
  chunksOf64Go l.length l

/-- MD5 padding: append `0x80`, zeros to 56 mod 64, then the 64-bit
little-endian bit length. -/
def md5Pad (msg : List Nat) : List Nat :=
  let padLen := (119 - msg.length % 64) % 64
  let bitLen := (msg.length * 8) % 18446744073709551616
  msg ++ [0x80] ++ List.replicate padLen 0 ++
    [bitLen % 256, bitLen / 256 % 256, bitLen / 65536 % 256,
     bitLen / 16777216 % 256, bitLen / 4294967296 % 256,
     bitLen / 1099511627776 % 256, bitLen / 281474976710656 % 256,
     bitLen / 72057594037927936 % 256]

/-- The four little-endian bytes of a 32-bit word. -/
def wordLEBytes (w : Nat) : List Nat :=
  [w % 256, w / 256 % 256, w / 65536 % 256, w / 16777216 % 256]

/-- Lower-case hexadecimal digit. -/
def hexChar (n : Nat) : Char :=
  if n < 10 then Char.ofNat (48 + n) else Char.ofNat (87 + n)

/-- Two lower-case hexadecimal characters per byte. -/
def bytesToHex (bytes : List Nat) : List Char :=
  bytes.flatMap (fun b => [hexChar (b / 16 % 16), hexChar (b % 16)])

/-- MD5 digest of a byte list, as the 16 digest bytes. -/
def md5Bytes (msg : List Nat) : List Nat :=
  let (a, b, c, d) :=
    (chunksOf64 (md5Pad msg)).foldl md5Chunk
      (0x67452301, 0xefcdab89, 0x98badcfe, 0x10325476)
  wordLEBytes a ++ wordLEBytes b ++ wordLEBytes c ++ wordLEBytes d

/-- UTF-8 encoding of one character (Python `str.encode()`). -/
def utf8Char (c : Char) : List Nat :=
  let n := c.toNat
  if n < 128 then [n]
  else if n < 2048 then
    [192 + n / 64, 128 + n % 64]
  else if n < 65536 then
    [224 + n / 4096, 128 + n / 64 % 64, 128 + n % 64]
  else
    [240 + n / 262144, 128 + n / 4096 % 64, 128 + n / 64 % 64, 128 + n % 64]

/-- UTF-8 encoding of a string, as a byte list. -/
def utf8Encode (s : String) : List Nat :=
  s.data.flatMap utf8Char

/-- `hashlib.md5(s.encode()).hexdigest()`: the 32-character lower-case
hexadecimal MD5 digest of the UTF-8 encoding of `s`. -/
def md5Hex (s : String) : String :=
  String.mk (bytesToHex (md5Bytes (utf8Encode s)))

/-! ## The fingerprint function `generate_hash` -/

/-- `combined_string = "-".join([str(row[attr]) for attr in attributes])`
(line 45 of `scd_pipeline.py`); `none` models the `KeyError` raised when a
monitored attribute is absent from the row. -/
def combined_string (row : Row) (attributes : List String) : Option String :=
  (attributes.mapM (fun attr => lookupVal row attr)).map
    (fun vs => joinHyphen (vs.map pyStr))

/-- `generate_hash` (lines 29–46 of `scd_pipeline.py`): the MD5 hexdigest of
the hyphen-joined stringified monitored attribute values. -/
def generate_hash (row : Row) (attributes : List String) : Option String :=
  (combined_string row attributes).map md5Hex

/-! ## The history table and the row-processing loop of `run_scd_pipeline` -/

/-- A row of the CDC (history) table: the source attributes plus the four
audit columns `row_hash`, `row_start_date`, `row_end_date`, `is_current`. -/
structure HRow where
  data : Row
  row_hash : String
  row_start_date : String
  row_end_date : String
  is_current : Nat
deriving DecidableEq, Repr

/-- `expiry_time = "9999-12-31 23:59:59"` (line 131). -/
def expiry_time : String := "9999-12-31 23:59:59"

/-- SQL equality as used in `WHERE pk = ?`: comparisons involving NULL are
never satisfied, and INTEGER and TEXT values are never equal. -/
def sqlEq : Value → Value → Bool
  | Value.null, _ => false
  | _, Value.null => false
  | Value.int a, Value.int b => a == b
  | Value.str a, Value.str b => a == b
  | Value.int _, Value.str _ => false
  | Value.str _, Value.int _ => false

/-- The business-key value stored in a history row (`Value.null` when the
column is absent, which `sqlEq` then never matches — consistent with the
fixed table schema of the real store). -/
def hkeyVal (pk : String) (r : HRow) : Value :=
  (lookupVal r.data pk).getD Value.null

/-- The predicate of `WHERE {pk} = ? AND is_current = 1` against a bound
parameter `v`. -/
def matchesCurrent (pk : String) (v : Value) (r : HRow) : Bool :=
  sqlEq (hkeyVal pk r) v && r.is_current == 1

/-- The `UPDATE ... SET row_end_date = ?, is_current = 0` applied to one
matching row (lines 170–174). -/
def expireRow (now : String) (r : HRow) : HRow :=
  { r with row_end_date := now, is_current := 0 }

/-- The `INSERT INTO {TARGET_TABLE}` of a new current version (lines
154–161 and 177–184): source columns plus
`row_hash, row_start_date, row_end_date, is_current = h, now, expiry, 1`. -/
def mkNewRow (src : Row) (h now : String) : HRow :=
  { data := src, row_hash := h, row_start_date := now,
    row_end_date := expiry_time, is_current := 1 }

/-- Errors a run can surface: `keyError` is a Python `KeyError` from a
missing column, `dataAccessError` is a `sqlite3.Error` raised by the store. -/
inductive RunError where
  | keyError : RunError
  | dataAccessError : RunError
deriving DecidableEq, Repr

/-- The summary dictionary returned by `run_scd_pipeline` (lines 234–239). -/
structure Summary where
  new_count : Nat
  changed_count : Nat
  unchanged_count : Nat
  total_count : Nat
deriving DecidableEq, Repr

/-- The in-transaction state of the processing loop: the working copy of the
history table, the number of SQL statements executed so far inside the loop
(used by the failure oracle), and the three classification counters. -/
structure LoopState where
  hist : List HRow
  opCount : Nat
  new_count : Nat
  changed_count : Nat
  unchanged_count : Nat
deriving DecidableEq, Repr

/-- The body of the `for src_row in source_rows` loop (lines 139–192).

Each `cursor.execute` consults the failure oracle `failAt` at the current
statement index; a `true` models `sqlite3.Error` raised by that statement.
The `SELECT row_hash ... WHERE pk = ? AND is_current = 1` with `fetchone()`
is `List.find?` (first row in table order); the CHANGED branch expires every
matching row (the `UPDATE` has no `LIMIT`) and then appends the new
version. -/
def processRow (pk : String) (attrs : List String) (now : String)
    (failAt : Nat → Bool) (st : LoopState) (src_row : Row) :
    Except RunError LoopState :=
  match lookupVal src_row pk with
  | none => Except.error RunError.keyError
  | some src_pk_val =>
    match generate_hash src_row attrs with
    | none => Except.error RunError.keyError
    | some src_hash =>
      if failAt st.opCount then Except.error RunError.dataAccessError
      else
        match st.hist.find? (matchesCurrent pk src_pk_val) with
        | none =>
          if failAt (st.opCount + 1) then Except.error RunError.dataAccessError
          else Except.ok
            { st with
              hist := st.hist ++ [mkNewRow src_row src_hash now],
              opCount := st.opCount + 2,
              new_count := st.new_count + 1 }
        | some tgt_record =>
          if tgt_record.row_hash != src_hash then
            if failAt (st.opCount + 1) then Except.error RunError.dataAccessError
            else if failAt (st.opCount + 2) then
              Except.error RunError.dataAccessError
            else Except.ok
              { st with
                hist :=
                  (st.hist.map (fun r =>
                    if matchesCurrent pk src_pk_val r then expireRow now r
                    else r)) ++ [mkNewRow src_row src_hash now],
                opCount := st.opCount + 3,
                changed_count := st.changed_count + 1 }
          else Except.ok
            { st with
              opCount := st.opCount + 1,
              unchanged_count := st.unchanged_count + 1 }

/-- The processing loop over all source rows; stops at the first error. -/
def processRows (pk : String) (attrs : List String) (now : String)
    (failAt : Nat → Bool) :
    LoopState → List Row → Except RunError LoopState
  | st, [] => Except.ok st
  | st, r :: rs =>
    match processRow pk attrs now failAt st r with
    | Except.error e => Except.error e
    | Except.ok st' => processRows pk attrs now failAt st' rs

/-- The run configuration (`primary_key`, `changing_attributes`) after the
validated JSON load of step 1. -/
structure Config where
  primary_key : String
  changing_attributes : List String

/-- The oracle of a run in which the store raises no error. -/
def noFail : Nat → Bool := fun _ => false

/-- Steps 3–6 of `run_scd_pipeline` (lines 116–239): read the source
snapshot, process every row inside one transaction, then commit on success
or roll back on any error.  The first component is the durable (committed)
history table after the run: the working copy on commit, the pre-run table
on rollback.  The second component is the returned summary, or the error
the run surfaced. -/
def run_scd_pipeline (cfg : Config) (source_rows : List Row)
    (hist0 : List HRow) (now : String) (failAt : Nat → Bool) :
    List HRow × Except RunError Summary :=
  match processRows cfg.primary_key cfg.changing_attributes now failAt
      { hist := hist0, opCount := 0, new_count := 0, changed_count := 0,
        unchanged_count := 0 } source_rows with
  | Except.error e => (hist0, Except.error e)
  | Except.ok st =>
    (st.hist,
     Except.ok
       { new_count := st.new_count, changed_count := st.changed_count,
         unchanged_count := st.unchanged_count,
         total_count := source_rows.length })

/-! ## Derived observations on the history table -/

/-- `v` is a business-key value present in the history table. -/
def keyPresent (pk : String) (v : Value) (hist : List HRow) : Prop :=
  ∃ r ∈ hist, hkeyVal pk r = v

instance (pk : String) (v : Value) (hist : List HRow) :
    Decidable (keyPresent pk v hist) :=
  inferInstanceAs (Decidable (∃ r ∈ hist, hkeyVal pk r = v))

/-- `r` is a history row for business key `v` with `is_current = 1`
(plain value equality, used to state invariants about the table). -/
def isCurrentFor (pk : String) (v : Value) (r : HRow) : Bool :=
  hkeyVal pk r == v && r.is_current == 1

/-- Number of history rows carrying business key `v` with `is_current = 1`. -/
def currentCount (pk : String) (v : Value) (hist : List HRow) : Nat :=
  hist.countP (isCurrentFor pk v)

/-- The current-uniqueness invariant: every business-key value present in
the history table has exactly one current row. -/
def currentUnique (pk : String) (hist : List HRow) : Prop :=
  ∀ v : Value, keyPresent pk v hist → currentCount pk v hist = 1

/-! ## Basic lemmas about SQL equality and the lookup -/

theorem sqlEq_null_right (v : Value) : sqlEq v Value.null = false := by
  cases v <;> rfl

theorem sqlEq_true_iff {v w : Value} (hw : w ≠ Value.null) :
    sqlEq v w = true ↔ v = w := by
  cases v <;> cases w <;>
    simp_all [sqlEq]

theorem sqlEq_self {v : Value} (hv : v ≠ Value.null) : sqlEq v v = true :=
  (sqlEq_true_iff hv).2 rfl

/-! ## Counter bookkeeping -/

theorem processRow_sum_succ {pk : String} {attrs : List String} {now : String}
    {failAt : Nat → Bool} {st : LoopState} {r : Row} {st' : LoopState}
    (h : processRow pk attrs now failAt st r = Except.ok st') :
    st'.new_count + st'.changed_count + st'.unchanged_count
      = st.new_count + st.changed_count + st.unchanged_count + 1 := by
  unfold processRow at h
  repeat' split at h
  all_goals first
    | exact Except.noConfusion h
    | (injection h with h; subst h; simp; omega)

theorem processRows_sum {pk : String} {attrs : List String} {now : String}
    {failAt : Nat → Bool} :
    ∀ (rows : List Row) (st st' : LoopState),
    processRows pk attrs now failAt st rows = Except.ok st' →
    st'.new_count + st'.changed_count + st'.unchanged_count
      = st.new_count + st.changed_count + st.unchanged_count + rows.length := by
  intro rows
  induction rows with
  | nil =>
    intro st st' h
    unfold processRows at h
    injection h with h
    subst h
    simp
  | cons r rs ih =>
    intro st st' h
    unfold processRows at h
    cases hp : processRow pk attrs now failAt st r with
    | error e => rw [hp] at h; exact Except.noConfusion h
    | ok st1 =>
      rw [hp] at h
      have h1 := ih st1 st' h
      have h2 := processRow_sum_succ hp
      simp only [List.length_cons]
      omega

instance {ε α : Type} [DecidableEq ε] [DecidableEq α] :
    DecidableEq (Except ε α) := fun a b =>
  match a, b with
  | Except.error x, Except.error y =>
    if h : x = y then isTrue (by subst h; rfl)
    else isFalse (fun hc => h (Except.error.inj hc))
  | Except.ok x, Except.ok y =>
    if h : x = y then isTrue (by subst h; rfl)
    else isFalse (fun hc => h (Except.ok.inj hc))
  | Except.error _, Except.ok _ => isFalse (fun hc => Except.noConfusion hc)
  | Except.ok _, Except.error _ => isFalse (fun hc => Except.noConfusion hc)

/-! ## C2: rollback atomicity -/

/-- C2: if any store operation fails during row processing, the whole
transaction is rolled back: whenever `run_scd_pipeline` surfaces an error,
the durable history table is exactly the pre-run table — no subset of the
run's mutations persists. -/
theorem C2_rollback_atomicity (cfg : Config) (src : List Row)
    (hist0 : List HRow) (now : String) (failAt : Nat → Bool) (e : RunError)
    (hfail : (run_scd_pipeline cfg src hist0 now failAt).2 = Except.error e) :
    (run_scd_pipeline cfg src hist0 now failAt).1 = hist0 := by
  unfold run_scd_pipeline at hfail ⊢
  cases hp : processRows cfg.primary_key cfg.changing_attributes now failAt
      { hist := hist0, opCount := 0, new_count := 0, changed_count := 0,
        unchanged_count := 0 } src with
  | error e' => rfl
  | ok st => rw [hp] at hfail; exact Except.noConfusion hfail

/-- A two-row source snapshot used to exercise a mid-run store failure. -/
def rollbackSrc : List Row :=
  [[("id", Value.int 1), ("a", Value.int 1)],
   [("id", Value.int 2), ("a", Value.int 2)]]

/-- A failure oracle that makes the third SQL statement of the loop (the
lookup for the second source row) raise `sqlite3.Error`. -/
def failThird : Nat → Bool := fun n => n == 2

/-- Witness for C2: a run over two rows in which the store fails after the
first row was fully processed indeed surfaces the error, and the durable
history table equals the (empty) pre-run table. -/
theorem C2_rollback_atomicity_witness :
    (run_scd_pipeline ⟨"id", ["a"]⟩ rollbackSrc [] "t1" failThird).2
        = Except.error RunError.dataAccessError ∧
      (run_scd_pipeline ⟨"id", ["a"]⟩ rollbackSrc [] "t1" failThird).1 = [] :=
  ⟨by decide,
   C2_rollback_atomicity ⟨"id", ["a"]⟩ rollbackSrc [] "t1" failThird
     RunError.dataAccessError (by decide)⟩

/-! ## C10: the summary counts partition the source rows -/

/-- C10: on every successful run, the returned summary satisfies
`new_count + changed_count + unchanged_count = total_count`, and
`total_count` is the number of rows read from the source relation. -/
theorem C10_summary_partition (cfg : Config) (src : List Row)
    (hist0 : List HRow) (now : String) (failAt : Nat → Bool) (s : Summary)
    (hok : (run_scd_pipeline cfg src hist0 now failAt).2 = Except.ok s) :
    s.new_count + s.changed_count + s.unchanged_count = s.total_count ∧
      s.total_count = src.length := by
  unfold run_scd_pipeline at hok
  cases hp : processRows cfg.primary_key cfg.changing_attributes now failAt
      { hist := hist0, opCount := 0, new_count := 0, changed_count := 0,
        unchanged_count := 0 } src with
  | error e => rw [hp] at hok; exact Except.noConfusion hok
  | ok st =>
    rw [hp] at hok
    injection hok with hok
    subst hok
    have h1 := processRows_sum src _ st hp
    simp at h1
    simp
    omega

/-- A three-row source snapshot: key 1 is new, key 2 changed, key 3
unchanged with respect to `threeHist`. -/
def threeSrc : List Row :=
  [[("id", Value.int 1), ("a", Value.int 1)],
   [("id", Value.int 2), ("a", Value.int 2)],
   [("id", Value.int 3), ("a", Value.int 3)]]

/-- A history table with current versions for keys 2 (stale digest) and 3
(digest of the unchanged source row, i.e. the MD5 of `"3"`). -/
def threeHist : List HRow :=
  [{ data := [("id", Value.int 2), ("a", Value.int 9)], row_hash := "h2",
     row_start_date := "t0", row_end_date := expiry_time, is_current := 1 },
   { data := [("id", Value.int 3), ("a", Value.int 3)],
     row_hash := "eccbc87e4b5ce2fe28308fd9f2a7baf3",
     row_start_date := "t0", row_end_date := expiry_time, is_current := 1 }]

/-- Witness for C10: a concrete run with one new, one changed and one
unchanged row returns the summary `⟨1, 1, 1, 3⟩`, which partitions the three
source rows. -/
theorem C10_summary_partition_witness :
    (1 : Nat) + 1 + 1 = 3 ∧ (3 : Nat) = threeSrc.length :=
  C10_summary_partition ⟨"id", ["a"]⟩ threeSrc threeHist "t1" noFail
    ⟨1, 1, 1, 3⟩ (by decide)

/-! ## C3: the per-row three-way protocol -/

/-- A conditional map leaves a list unchanged when no element satisfies the
condition. -/
theorem map_if_of_none {α : Type} {p : α → Bool} {g : α → α} {l : List α}
    (h : ∀ y ∈ l, p y = false) :
    l.map (fun r => if p r then g r else r) = l := by
  induction l with
  | nil => rfl
  | cons a l ih =>
    simp only [List.map_cons]
    rw [if_neg (by simp [h a (List.mem_cons_self a l)]),
      ih (fun y hy => h y (List.mem_cons_of_mem a hy))]

/-- C3: each source row with business key `k` and digest `h` triggers
exactly one of the three actions, each with its exact effect:
* no current row for `k` → one insert of the new version (digest `h`,
  validity `[now, sentinel)`, current flag set) and `new_count` increments;
* a current row with a different stored digest → that row (the unique
  current row for `k`) gets `row_end_date := now, is_current := 0`, then
  the new version is inserted, and `changed_count` increments;
* a current row with the same digest → no write, `unchanged_count`
  increments. -/
theorem C3_three_way_protocol (pk : String) (attrs : List String)
    (now : String) (st : LoopState) (row : Row) (v0 : Value) (h : String)
    (hpk : lookupVal row pk = some v0)
    (hh : generate_hash row attrs = some h) :
    (st.hist.find? (matchesCurrent pk v0) = none →
      processRow pk attrs now noFail st row = Except.ok
        { st with
          hist := st.hist ++ [mkNewRow row h now],
          opCount := st.opCount + 2,
          new_count := st.new_count + 1 }) ∧
    (∀ tgt : HRow, st.hist.find? (matchesCurrent pk v0) = some tgt →
      st.hist.countP (matchesCurrent pk v0) ≤ 1 → tgt.row_hash ≠ h →
      ∃ l1 l2 : List HRow, st.hist = l1 ++ tgt :: l2 ∧
        processRow pk attrs now noFail st row = Except.ok
          { st with
            hist := l1 ++ expireRow now tgt :: l2 ++ [mkNewRow row h now],
            opCount := st.opCount + 3,
            changed_count := st.changed_count + 1 }) ∧
    (∀ tgt : HRow, st.hist.find? (matchesCurrent pk v0) = some tgt →
      tgt.row_hash = h →
      processRow pk attrs now noFail st row = Except.ok
        { st with
          opCount := st.opCount + 1,
          unchanged_count := st.unchanged_count + 1 }) := by
  refine ⟨?_, ?_, ?_⟩
  · intro hfind
    simp [processRow, hpk, hh, hfind, noFail]
  · intro tgt hfind huniq hne
    obtain ⟨hptgt, l1, l2, hsplit, hl1bang⟩ := List.find?_eq_some.1 hfind
    have hl1 : ∀ y ∈ l1, matchesCurrent pk v0 y = false := by
      intro y hy
      simpa using hl1bang y hy
    have hl2 : ∀ y ∈ l2, matchesCurrent pk v0 y = false := by
      rw [hsplit] at huniq
      simp only [List.countP_append, List.countP_cons, hptgt, if_pos] at huniq
      have h0 : l2.countP (matchesCurrent pk v0) = 0 := by omega
      intro y hy
      simpa using List.countP_eq_zero.1 h0 y hy
    refine ⟨l1, l2, hsplit, ?_⟩
    have hbne : (tgt.row_hash != h) = true := bne_iff_ne.2 hne
    have hmap : st.hist.map (fun r =>
        if matchesCurrent pk v0 r then expireRow now r else r)
        = l1 ++ expireRow now tgt :: l2 := by
      rw [hsplit, List.map_append, List.map_cons, map_if_of_none hl1,
        if_pos hptgt, map_if_of_none hl2]
    simp [processRow, hpk, hh, hfind, noFail, hbne, hmap]
  · intro tgt hfind heq
    simp [processRow, hpk, hh, hfind, noFail, heq]

/-- A fresh source row for business key 1 whose only monitored attribute
stringifies to `"1"` (`MD5("1") = c4ca4238a0b923820dcc509a6f75849b`). -/
def rowK1 : Row := [("id", Value.int 1), ("a", Value.int 1)]

/-- The empty initial loop state. -/
def emptyState : LoopState :=
  { hist := [], opCount := 0, new_count := 0, changed_count := 0,
    unchanged_count := 0 }

/-- Witness for C3: on an empty history table the concrete row `rowK1` is
classified NEW with exactly the stated insert. -/
theorem C3_three_way_protocol_witness :
    processRow "id" ["a"] "t1" noFail emptyState rowK1 = Except.ok
      { emptyState with
        hist := [mkNewRow rowK1 "c4ca4238a0b923820dcc509a6f75849b" "t1"],
        opCount := 2,
        new_count := 1 } :=
  (C3_three_way_protocol "id" ["a"] "t1" emptyState rowK1 (Value.int 1)
    "c4ca4238a0b923820dcc509a6f75849b" (by decide) (by decide)).1 (by decide)

/-! ## C4: behaviour on a corrupted (duplicate-current) history table -/

/-- A corrupted history table: two rows for business key 1 both flagged
current. -/
def corruptedHist : List HRow :=
  [{ data := [("id", Value.int 1), ("a", Value.int 7)], row_hash := "hA",
     row_start_date := "t0", row_end_date := expiry_time, is_current := 1 },
   { data := [("id", Value.int 1), ("a", Value.int 8)], row_hash := "hB",
     row_start_date := "t0", row_end_date := expiry_time, is_current := 1 }]

/-- Counterexample to C4: with two current rows for key 1 in the history
table, the run does not fail — there is no invariant check at all — it
classifies the row against the first fetched record and commits its
mutations (here: a CHANGED run that expires both rows and inserts one). -/
theorem C4_counterexample :
    currentCount "id" (Value.int 1) corruptedHist = 2 ∧
      (run_scd_pipeline ⟨"id", ["a"]⟩ [rowK1] corruptedHist "t1" noFail).2
        = Except.ok
          { new_count := 0, changed_count := 1, unchanged_count := 0,
            total_count := 1 } ∧
      (run_scd_pipeline ⟨"id", ["a"]⟩ [rowK1] corruptedHist "t1" noFail).1
        ≠ corruptedHist := by
  decide

/-- C4 (amended): when several history rows for the looked-up key are
simultaneously current, the engine performs no invariant check and never
fails: `fetchone()` returns the first matching row in table order and the
classification is decided solely by that row's stored digest (in the
CHANGED case the update then expires every current row of that key). -/
theorem C4_first_row_decides (pk : String) (attrs : List String)
    (now : String) (st : LoopState) (row : Row) (v0 : Value) (h : String)
    (tgt : HRow)
    (hpk : lookupVal row pk = some v0)
    (hh : generate_hash row attrs = some h)
    (hfind : st.hist.find? (matchesCurrent pk v0) = some tgt) :
    (tgt.row_hash = h →
      processRow pk attrs now noFail st row = Except.ok
        { st with
          opCount := st.opCount + 1,
          unchanged_count := st.unchanged_count + 1 }) ∧
    (tgt.row_hash ≠ h →
      processRow pk attrs now noFail st row = Except.ok
        { st with
          hist := (st.hist.map fun r =>
              if matchesCurrent pk v0 r then expireRow now r else r)
            ++ [mkNewRow row h now],
          opCount := st.opCount + 3,
          changed_count := st.changed_count + 1 }) := by
  constructor
  · intro heq
    simp [processRow, hpk, hh, hfind, noFail, heq]
  · intro hne
    have hbne : (tgt.row_hash != h) = true := bne_iff_ne.2 hne
    simp [processRow, hpk, hh, hfind, noFail, hbne]

/-- The loop state holding the corrupted two-current-rows table. -/
def corruptedState : LoopState :=
  { hist := corruptedHist, opCount := 0, new_count := 0, changed_count := 0,
    unchanged_count := 0 }

/-- Witness for C4 (amended): on the corrupted table the concrete row
`rowK1` is classified CHANGED against the first of the two current rows,
both current rows are expired, and no error is raised. -/
theorem C4_first_row_decides_witness :
    processRow "id" ["a"] "t1" noFail corruptedState rowK1 = Except.ok
      { corruptedState with
        hist := (corruptedState.hist.map fun r =>
            if matchesCurrent "id" (Value.int 1) r then expireRow "t1" r
            else r)
          ++ [mkNewRow rowK1 "c4ca4238a0b923820dcc509a6f75849b" "t1"],
        opCount := 3,
        changed_count := 1 } :=
  (C4_first_row_decides "id" ["a"] "t1" corruptedState rowK1 (Value.int 1)
    "c4ca4238a0b923820dcc509a6f75849b" (corruptedHist.get ⟨0, by decide⟩)
    (by decide) (by decide) (by decide)).2 (by decide)

/-! ## C5: behaviour on null and duplicate business keys -/

/-- A source snapshot with a null business key. -/
def nullKeySrc : List Row := [[("id", Value.null), ("a", Value.int 5)]]

/-- A source snapshot with a duplicated business key. -/
def dupKeySrc : List Row := [rowK1, rowK1]

/-- Counterexample to C5: neither a null business key nor a duplicated
business key aborts the run.  The null-keyed row is committed as NEW, and
of two identical rows with the same key the first is committed as NEW and
the second is classified UNCHANGED — no input-validation error exists. -/
theorem C5_counterexample :
    (run_scd_pipeline ⟨"id", ["a"]⟩ nullKeySrc [] "t1" noFail).2
        = Except.ok
          { new_count := 1, changed_count := 0, unchanged_count := 0,
            total_count := 1 } ∧
      (run_scd_pipeline ⟨"id", ["a"]⟩ nullKeySrc [] "t1" noFail).1 ≠ [] ∧
      (run_scd_pipeline ⟨"id", ["a"]⟩ dupKeySrc [] "t1" noFail).2
        = Except.ok
          { new_count := 1, changed_count := 0, unchanged_count := 1,
            total_count := 2 } := by
  decide

/-- C5 (amended): there is no input validation.  A null business key never
matches the current-row lookup (SQL `NULL` equality), so every null-keyed
source row is classified NEW and inserted; duplicate business keys are
simply processed one after the other against the evolving table, without
any error. -/
theorem C5_null_key_inserted (pk : String) (attrs : List String)
    (now : String) (st : LoopState) (row : Row) (h : String)
    (hpk : lookupVal row pk = some Value.null)
    (hh : generate_hash row attrs = some h) :
    processRow pk attrs now noFail st row = Except.ok
      { st with
        hist := st.hist ++ [mkNewRow row h now],
        opCount := st.opCount + 2,
        new_count := st.new_count + 1 } := by
  have hfind : st.hist.find? (matchesCurrent pk Value.null) = none := by
    rw [List.find?_eq_none]
    intro r _
    simp [matchesCurrent, sqlEq_null_right]
  simp [processRow, hpk, hh, hfind, noFail]

/-- Witness for C5 (amended): the concrete null-keyed row is inserted as
NEW on the empty table. -/
theorem C5_null_key_inserted_witness :
    processRow "id" ["a"] "t1" noFail emptyState
      [("id", Value.null), ("a", Value.int 5)] = Except.ok
      { emptyState with
        hist := [mkNewRow [("id", Value.null), ("a", Value.int 5)]
          "e4da3b7fbbce2345d7772b0674a318d5" "t1"],
        opCount := 2,
        new_count := 1 } :=
  C5_null_key_inserted "id" ["a"] "t1" emptyState
    [("id", Value.null), ("a", Value.int 5)]
    "e4da3b7fbbce2345d7772b0674a318d5" (by decide) (by decide)

/-! ## Bridging SQL matching and plain value equality -/

theorem sqlEq_eq_beq {v w : Value} (hw : w ≠ Value.null) :
    sqlEq v w = (v == w) := by
  rw [Bool.eq_iff_iff]
  constructor
  · intro h
    exact beq_iff_eq.2 ((sqlEq_true_iff hw).1 h)
  · intro h
    exact (sqlEq_true_iff hw).2 (beq_iff_eq.1 h)

/-- For a non-null key parameter the SQL `WHERE` predicate coincides with
plain value equality plus the current flag. -/
theorem matchesCurrent_eq_isCurrentFor {v : Value} (hv : v ≠ Value.null)
    (pk : String) (r : HRow) :
    matchesCurrent pk v r = isCurrentFor pk v r := by
  unfold matchesCurrent isCurrentFor
  rw [sqlEq_eq_beq hv]

theorem hkey_of_matchesCurrent {pk : String} {v : Value} {r : HRow}
    (hv : v ≠ Value.null) (h : matchesCurrent pk v r = true) :
    hkeyVal pk r = v := by
  unfold matchesCurrent at h
  exact (sqlEq_true_iff hv).1 (Bool.and_elim_left h)

theorem hkeyVal_expireRow (pk now : String) (r : HRow) :
    hkeyVal pk (expireRow now r) = hkeyVal pk r := rfl

theorem isCurrentFor_expireRow (pk : String) (v : Value) (now : String)
    (r : HRow) : isCurrentFor pk v (expireRow now r) = false := by
  simp [isCurrentFor, expireRow]

/-! ## Presence and counting over the table mutations -/

theorem keyPresent_append {pk : String} {v : Value} {l1 l2 : List HRow} :
    keyPresent pk v (l1 ++ l2) ↔ keyPresent pk v l1 ∨ keyPresent pk v l2 := by
  unfold keyPresent
  simp [List.mem_append, or_and_right, exists_or]

theorem keyPresent_map_update {pk now : String} {p : HRow → Bool}
    {hist : List HRow} (v : Value) :
    keyPresent pk v
        (hist.map fun r => if p r then expireRow now r else r)
      ↔ keyPresent pk v hist := by
  unfold keyPresent
  constructor
  · rintro ⟨r, hr, hk⟩
    obtain ⟨r0, hr0, rfl⟩ := List.mem_map.1 hr
    refine ⟨r0, hr0, ?_⟩
    by_cases hp : p r0 <;> simp_all [hkeyVal_expireRow]
  · rintro ⟨r, hr, hk⟩
    refine ⟨if p r then expireRow now r else r, List.mem_map_of_mem _ hr, ?_⟩
    by_cases hp : p r <;> simp_all [hkeyVal_expireRow]

theorem currentCount_append (pk : String) (v : Value) (l1 l2 : List HRow) :
    currentCount pk v (l1 ++ l2)
      = currentCount pk v l1 + currentCount pk v l2 := by
  simp [currentCount]

theorem currentCount_singleton (pk : String) (v : Value) (r : HRow) :
    currentCount pk v [r] = if isCurrentFor pk v r then 1 else 0 := by
  simp [currentCount, List.countP_cons]

/-! ## Exhaustive case analysis of a successful row step -/

/-- Every successful `processRow` step is exactly one of the three scenario
outcomes, with its exact effect on the working table and the counters. -/
theorem processRow_ok_cases {pk : String} {attrs : List String}
    {now : String} {failAt : Nat → Bool} {st : LoopState} {row : Row}
    {st' : LoopState}
    (h : processRow pk attrs now failAt st row = Except.ok st') :
    ∃ v0 hsh, lookupVal row pk = some v0 ∧
      generate_hash row attrs = some hsh ∧
      ((st.hist.find? (matchesCurrent pk v0) = none ∧
          st'.hist = st.hist ++ [mkNewRow row hsh now] ∧
          st'.new_count = st.new_count + 1 ∧
          st'.changed_count = st.changed_count ∧
          st'.unchanged_count = st.unchanged_count) ∨
        (∃ tgt, st.hist.find? (matchesCurrent pk v0) = some tgt ∧
          tgt.row_hash ≠ hsh ∧
          st'.hist = (st.hist.map fun r =>
              if matchesCurrent pk v0 r then expireRow now r else r)
            ++ [mkNewRow row hsh now] ∧
          st'.new_count = st.new_count ∧
          st'.changed_count = st.changed_count + 1 ∧
          st'.unchanged_count = st.unchanged_count) ∨
        (∃ tgt, st.hist.find? (matchesCurrent pk v0) = some tgt ∧
          tgt.row_hash = hsh ∧
          st'.hist = st.hist ∧
          st'.new_count = st.new_count ∧
          st'.changed_count = st.changed_count ∧
          st'.unchanged_count = st.unchanged_count + 1)) := by
  cases hpk : lookupVal row pk with
  | none => simp [processRow, hpk] at h
  | some v0 =>
    cases hh : generate_hash row attrs with
    | none => simp [processRow, hpk, hh] at h
    | some hsh =>
      by_cases hf0 : failAt st.opCount
      · simp [processRow, hpk, hh, hf0] at h
      · cases hfind : st.hist.find? (matchesCurrent pk v0) with
        | none =>
          by_cases hf1 : failAt (st.opCount + 1)
          · simp [processRow, hpk, hh, hf0, hfind, hf1] at h
          · simp only [processRow, hpk, hh, hf0, hfind, hf1,
              Bool.false_eq_true, if_false, Except.ok.injEq] at h
            subst h
            exact ⟨v0, hsh, rfl, rfl, Or.inl ⟨hfind, rfl, rfl, rfl, rfl⟩⟩
        | some tgt =>
          by_cases hbn : tgt.row_hash = hsh
          · have hb : (tgt.row_hash != hsh) = false := by
              simp [bne, hbn]
            simp only [processRow, hpk, hh, hf0, hfind, hb,
              Bool.false_eq_true, if_false, Except.ok.injEq] at h
            subst h
            exact ⟨v0, hsh, rfl, rfl,
              Or.inr (Or.inr ⟨tgt, hfind, hbn, rfl, rfl, rfl, rfl⟩)⟩
          · have hb : (tgt.row_hash != hsh) = true := bne_iff_ne.2 hbn
            by_cases hf1 : failAt (st.opCount + 1)
            · simp [processRow, hpk, hh, hf0, hfind, hb, hf1] at h
            · by_cases hf2 : failAt (st.opCount + 2)
              · simp [processRow, hpk, hh, hf0, hfind, hb, hf1, hf2] at h
              · simp only [processRow, hpk, hh, hf0, hfind, hb, hf1, hf2,
                  Bool.false_eq_true, if_false, if_true, Except.ok.injEq] at h
                subst h
                exact ⟨v0, hsh, rfl, rfl,
                  Or.inr (Or.inl ⟨tgt, hfind, hbn, rfl, rfl, rfl, rfl⟩)⟩

/-! ## C1: preservation of the current-uniqueness invariant -/

/-- One successful row step preserves current-uniqueness, provided the
row's business key is non-null. -/
theorem processRow_preserves_currentUnique {pk : String}
    {attrs : List String} {now : String} {failAt : Nat → Bool}
    {st st' : LoopState} {row : Row}
    (hrow : ∀ v, lookupVal row pk = some v → v ≠ Value.null)
    (hinv : currentUnique pk st.hist)
    (h : processRow pk attrs now failAt st row = Except.ok st') :
    currentUnique pk st'.hist := by
  obtain ⟨v0, hsh, hpk, hh, hcase⟩ := processRow_ok_cases h
  have hv0 : v0 ≠ Value.null := hrow v0 hpk
  have hknew : hkeyVal pk (mkNewRow row hsh now) = v0 := by
    simp [hkeyVal, mkNewRow, hpk]
  have hcurnew : (mkNewRow row hsh now).is_current = 1 := rfl
  rcases hcase with ⟨hfind, hhist, -, -, -⟩ | ⟨tgt, hfind, hne, hhist, -, -, -⟩
    | ⟨tgt, hfind, heq, hhist, -, -, -⟩
  · -- NEW: no current row for v0 existed; one is appended
    rw [hhist]
    intro v hp
    rw [currentCount_append, currentCount_singleton]
    by_cases hvv : v = v0
    · subst hvv
      have h0 : currentCount pk v st.hist = 0 := by
        apply List.countP_eq_zero.2
        intro r hr
        have hm := List.find?_eq_none.1 hfind r hr
        rw [matchesCurrent_eq_isCurrentFor hv0] at hm
        simpa using hm
      rw [h0, if_pos (by simp [isCurrentFor, hknew, hcurnew])]
    · have hnewv : isCurrentFor pk v (mkNewRow row hsh now) = false := by
        simp [isCurrentFor, hknew]
        intro hc
        exact absurd hc.symm hvv
      rw [hnewv]
      rcases keyPresent_append.1 hp with hp1 | hp2
      · simp [hinv v hp1]
      · exfalso
        obtain ⟨r, hr, hk⟩ := hp2
        simp only [List.mem_singleton] at hr
        subst hr
        exact hvv (hk ▸ hknew ▸ rfl)
  · -- CHANGED: every current row for v0 is expired, one is appended
    rw [hhist]
    intro v hp
    rw [currentCount_append, currentCount_singleton]
    by_cases hvv : v = v0
    · subst hvv
      have h0 : currentCount pk v
          (st.hist.map fun r =>
            if matchesCurrent pk v r then expireRow now r else r) = 0 := by
        unfold currentCount
        rw [List.countP_map]
        apply List.countP_eq_zero.2
        intro r hr
        by_cases hm : matchesCurrent pk v r
        · simp [Function.comp, hm, isCurrentFor_expireRow]
        · rw [matchesCurrent_eq_isCurrentFor hv0] at hm
          simp only [Function.comp]
          rw [if_neg (by rw [matchesCurrent_eq_isCurrentFor hv0]; exact hm)]
          simpa using hm
      rw [h0, if_pos (by simp [isCurrentFor, hknew, hcurnew])]
    · have hnewv : isCurrentFor pk v (mkNewRow row hsh now) = false := by
        simp [isCurrentFor, hknew]
        intro hc
        exact absurd hc.symm hvv
      rw [hnewv]
      have hmapcount : currentCount pk v
          (st.hist.map fun r =>
            if matchesCurrent pk v0 r then expireRow now r else r)
          = currentCount pk v st.hist := by
        unfold currentCount
        rw [List.countP_map]
        apply List.countP_congr
        intro r hr
        by_cases hm : matchesCurrent pk v0 r
        · have hkr : hkeyVal pk r = v0 := hkey_of_matchesCurrent hv0 hm
          have hl : isCurrentFor pk v r = false := by
            simp [isCurrentFor, hkr]
            intro hc
            exact absurd hc.symm hvv
          simp [Function.comp, hm, isCurrentFor_expireRow, hl]
        · simp [Function.comp, hm]
      rcases keyPresent_append.1 hp with hp1 | hp2
      · have hp0 := (keyPresent_map_update v).1 hp1
        simp [hmapcount, hinv v hp0]
      · exfalso
        obtain ⟨r, hr, hk⟩ := hp2
        simp only [List.mem_singleton] at hr
        subst hr
        exact hvv (hk ▸ hknew ▸ rfl)
  · -- UNCHANGED: no write
    rw [hhist]
    exact hinv

/-- The whole loop preserves current-uniqueness when every source row has a
non-null business key. -/
theorem processRows_preserve_currentUnique {pk : String}
    {attrs : List String} {now : String} {failAt : Nat → Bool} :
    ∀ (rows : List Row) (st st' : LoopState),
    (∀ row ∈ rows, ∀ v, lookupVal row pk = some v → v ≠ Value.null) →
    currentUnique pk st.hist →
    processRows pk attrs now failAt st rows = Except.ok st' →
    currentUnique pk st'.hist := by
  intro rows
  induction rows with
  | nil =>
    intro st st' _ hinv h
    unfold processRows at h
    injection h with h
    subst h
    exact hinv
  | cons r rs ih =>
    intro st st' hrows hinv h
    unfold processRows at h
    cases hp : processRow pk attrs now failAt st r with
    | error e => rw [hp] at h; exact Except.noConfusion h
    | ok st1 =>
      rw [hp] at h
      exact ih st1 st' (fun row hm => hrows row (List.mem_cons_of_mem _ hm))
        (processRow_preserves_currentUnique
          (hrows r (List.mem_cons_self r rs)) hinv hp) h

/-- Counterexample to C1 as stated: the claim quantifies over *every*
initial history-table state, but a pre-existing corruption (two current
rows for key 1) that the source snapshot does not touch survives a
successful run untouched: afterwards key 1 is present with two current
rows, not exactly one. -/
theorem C1_counterexample :
    (run_scd_pipeline ⟨"id", ["a"]⟩ [] corruptedHist "t1" noFail).2
        = Except.ok
          { new_count := 0, changed_count := 0, unchanged_count := 0,
            total_count := 0 } ∧
      (run_scd_pipeline ⟨"id", ["a"]⟩ [] corruptedHist "t1" noFail).1
        = corruptedHist ∧
      keyPresent "id" (Value.int 1) corruptedHist ∧
      currentCount "id" (Value.int 1) corruptedHist = 2 := by
  decide

/-- C1 (amended): for every initial history table *already satisfying* the
current-uniqueness invariant and every source snapshot whose business keys
are all non-null, a successful run preserves the invariant: afterwards
every business-key value present in the history table has exactly one row
with `is_current = 1`.  (The code never repairs pre-existing corruption of
keys it does not rewrite, and SQL `NULL` keys never match the lookup, which
forces the two hypotheses.) -/
theorem C1_current_uniqueness (cfg : Config) (src : List Row)
    (hist0 : List HRow) (now : String) (s : Summary)
    (hinv : currentUnique cfg.primary_key hist0)
    (hkeys : ∀ row ∈ src, ∀ v,
      lookupVal row cfg.primary_key = some v → v ≠ Value.null)
    (hok : (run_scd_pipeline cfg src hist0 now noFail).2 = Except.ok s) :
    currentUnique cfg.primary_key
      (run_scd_pipeline cfg src hist0 now noFail).1 := by
  unfold run_scd_pipeline
  cases hp : processRows cfg.primary_key cfg.changing_attributes now noFail
      { hist := hist0, opCount := 0, new_count := 0, changed_count := 0,
        unchanged_count := 0 } src with
  | error e => exact hinv
  | ok st => exact processRows_preserve_currentUnique src _ st hkeys hinv hp

/-- Witness for C1 (amended): starting from the empty table (trivially
satisfying the invariant) and inserting one non-null-keyed row, the final
table satisfies current-uniqueness. -/
theorem C1_current_uniqueness_witness :
    currentUnique "id"
      (run_scd_pipeline ⟨"id", ["a"]⟩ [rowK1] [] "t1" noFail).1 :=
  C1_current_uniqueness ⟨"id", ["a"]⟩ [rowK1] [] "t1" ⟨1, 0, 0, 1⟩
    (fun v hp => absurd hp (by simp [keyPresent]))
    (fun row hr v hv => by
      simp only [List.mem_singleton] at hr
      subst hr
      simp only [rowK1, lookupVal, List.lookup] at hv
      simp at hv
      subst hv
      decide)
    (by decide)

/-! ## C9: history immutability (frame property) -/

/-- The only evolution a pre-existing history row may undergo in one run:
it is untouched, or — only if it was current — its `row_end_date` is set to
the run timestamp and its `is_current` flag cleared, all other fields
kept. -/
def frameOk (now : String) (r0 r1 : HRow) : Prop :=
  r1 = r0 ∨ (r0.is_current = 1 ∧ r1 = expireRow now r0)

theorem frameOk_update {pk : String} {v0 : Value} {now : String}
    {r0 r1 : HRow} (h : frameOk now r0 r1) :
    frameOk now r0
      (if matchesCurrent pk v0 r1 then expireRow now r1 else r1) := by
  by_cases hm : matchesCurrent pk v0 r1
  · rw [if_pos hm]
    rcases h with rfl | ⟨hc, rfl⟩
    · right
      refine ⟨?_, rfl⟩
      have hm' : (sqlEq (hkeyVal pk r1) v0 && (r1.is_current == 1)) = true :=
        hm
      rw [Bool.and_eq_true] at hm'
      exact beq_iff_eq.1 hm'.2
    · exfalso
      simp [matchesCurrent, expireRow] at hm
  · rw [if_neg hm]
    exact h

theorem forall₂_map_right {α β : Type} {R : α → β → Prop} {g : β → β}
    (hg : ∀ a b, R a b → R a (g b)) :
    ∀ {as : List α} {bs : List β},
    List.Forall₂ R as bs → List.Forall₂ R as (bs.map g) := by
  intro as bs h
  induction h with
  | nil => exact List.Forall₂.nil
  | cons h1 _ ih => exact List.Forall₂.cons (hg _ _ h1) ih

/-- One successful row step can only leave pre-existing rows alone, expire
previously-current ones, and append new rows at the end. -/
theorem processRow_frame {pk : String} {attrs : List String} {now : String}
    {failAt : Nat → Bool} {st st' : LoopState} {row : Row}
    (h : processRow pk attrs now failAt st row = Except.ok st')
    {h0 : List HRow} (hlen : h0.length ≤ st.hist.length)
    (hf : List.Forall₂ (frameOk now) h0 (st.hist.take h0.length)) :
    h0.length ≤ st'.hist.length ∧
      List.Forall₂ (frameOk now) h0 (st'.hist.take h0.length) := by
  obtain ⟨v0, hsh, hpk, hh, hcase⟩ := processRow_ok_cases h
  rcases hcase with ⟨hfind, hhist, -, -, -⟩ | ⟨tgt, hfind, hne, hhist, -, -, -⟩
    | ⟨tgt, hfind, heq, hhist, -, -, -⟩
  · rw [hhist]
    constructor
    · simp only [List.length_append, List.length_cons, List.length_nil]
      omega
    · rw [List.take_append_of_le_length hlen]
      exact hf
  · rw [hhist]
    constructor
    · simp only [List.length_append, List.length_map, List.length_cons,
        List.length_nil]
      omega
    · rw [List.take_append_of_le_length (by simpa using hlen),
        ← List.map_take]
      exact forall₂_map_right (fun a b hb => frameOk_update hb) hf
  · rw [hhist]
    exact ⟨hlen, hf⟩

theorem processRows_frame {pk : String} {attrs : List String} {now : String}
    {failAt : Nat → Bool} :
    ∀ (rows : List Row) (st st' : LoopState),
    processRows pk attrs now failAt st rows = Except.ok st' →
    ∀ {h0 : List HRow}, h0.length ≤ st.hist.length →
    List.Forall₂ (frameOk now) h0 (st.hist.take h0.length) →
    h0.length ≤ st'.hist.length ∧
      List.Forall₂ (frameOk now) h0 (st'.hist.take h0.length) := by
  intro rows
  induction rows with
  | nil =>
    intro st st' h h0 hlen hf
    unfold processRows at h
    injection h with h
    subst h
    exact ⟨hlen, hf⟩
  | cons r rs ih =>
    intro st st' h h0 hlen hf
    unfold processRows at h
    cases hp : processRow pk attrs now failAt st r with
    | error e => rw [hp] at h; exact Except.noConfusion h
    | ok st1 =>
      rw [hp] at h
      obtain ⟨hlen1, hf1⟩ := processRow_frame hp hlen hf
      exact ih st1 st' h hlen1 hf1

/-- C9: a run never deletes a pre-existing history row and never modifies
one except to set `row_end_date := run timestamp` and `is_current := 0` on
a row that was current before the mutation: the first `hist0.length` rows
of the final table are, position by position, either the original row or
its expired version. -/
theorem C9_history_immutability (cfg : Config) (src : List Row)
    (hist0 : List HRow) (now : String) (failAt : Nat → Bool) (s : Summary)
    (hok : (run_scd_pipeline cfg src hist0 now failAt).2 = Except.ok s) :
    List.Forall₂ (frameOk now) hist0
      ((run_scd_pipeline cfg src hist0 now failAt).1.take hist0.length) := by
  unfold run_scd_pipeline at hok ⊢
  cases hp : processRows cfg.primary_key cfg.changing_attributes now failAt
      { hist := hist0, opCount := 0, new_count := 0, changed_count := 0,
        unchanged_count := 0 } src with
  | error e =>
    rw [hp] at hok
    exact Except.noConfusion hok
  | ok st =>
    have hbase : List.Forall₂ (frameOk now) hist0 (hist0.take hist0.length) := by
      rw [List.take_length]
      exact List.forall₂_same.2 (fun r _ => Or.inl rfl)
    exact (processRows_frame src _ st hp (Nat.le_refl _) hbase).2

/-- Witness for C9: in the concrete three-row run, the two pre-existing
history rows reappear at their positions, each either untouched or
expired. -/
theorem C9_history_immutability_witness :
    List.Forall₂ (frameOk "t1") threeHist
      ((run_scd_pipeline ⟨"id", ["a"]⟩ threeSrc threeHist "t1" noFail).1.take
        threeHist.length) :=
  C9_history_immutability ⟨"id", ["a"]⟩ threeSrc threeHist "t1" noFail
    ⟨1, 1, 1, 3⟩ (by decide)

/-! ## C8: idempotence on an unchanged source snapshot -/

/-- The freshly inserted version matches the current-row lookup for its own
business key. -/
theorem matchesCurrent_mkNewRow {pk : String} {v0 : Value} {row : Row}
    {hsh now : String} (hv0 : v0 ≠ Value.null)
    (hpk : lookupVal row pk = some v0) :
    matchesCurrent pk v0 (mkNewRow row hsh now) = true := by
  unfold matchesCurrent
  rw [show hkeyVal pk (mkNewRow row hsh now) = v0 by
    simp [hkeyVal, mkNewRow, hpk]]
  simp [sqlEq_self hv0, mkNewRow]

/-- After the CHANGED update, no row of the old table still matches the
current-row lookup for the updated key. -/
theorem find?_map_update_self (pk : String) (v0 : Value) (now : String)
    (hist : List HRow) :
    (hist.map fun r =>
        if matchesCurrent pk v0 r then expireRow now r else r).find?
      (matchesCurrent pk v0) = none := by
  rw [List.find?_eq_none]
  intro x hx
  obtain ⟨r, hr, rfl⟩ := List.mem_map.1 hx
  by_cases hm : matchesCurrent pk v0 r
  · rw [if_pos hm]
    simp [matchesCurrent, expireRow]
  · rw [if_neg hm]
    simpa using hm

/-- The CHANGED update for key `v0` does not disturb the current-row lookup
for any other key `v`. -/
theorem find?_map_update_of_ne {pk : String} {now : String} {v v0 : Value}
    (hv : v ≠ Value.null) (hne : v ≠ v0) :
    ∀ l : List HRow,
    (l.map fun r =>
        if matchesCurrent pk v0 r then expireRow now r else r).find?
        (matchesCurrent pk v)
      = l.find? (matchesCurrent pk v) := by
  intro l
  induction l with
  | nil => rfl
  | cons a l ih =>
    simp only [List.map_cons]
    by_cases hm : matchesCurrent pk v a
    · have hm0 : matchesCurrent pk v0 a = false := by
        cases hc : matchesCurrent pk v0 a
        · rfl
        · exfalso
          have h2 : sqlEq (hkeyVal pk a) v0 = true := by
            have hc' : (sqlEq (hkeyVal pk a) v0 && (a.is_current == 1))
                = true := hc
            rw [Bool.and_eq_true] at hc'
            exact hc'.1
          have hv0n : v0 ≠ Value.null := by
            intro hnull
            rw [hnull, sqlEq_null_right] at h2
            exact Bool.noConfusion h2
          have hk0 : hkeyVal pk a = v0 := (sqlEq_true_iff hv0n).1 h2
          have hk : hkeyVal pk a = v := hkey_of_matchesCurrent hv hm
          exact hne (hk ▸ hk0)
      rw [if_neg (by simp [hm0]), List.find?_cons_of_pos _ hm,
        List.find?_cons_of_pos _ hm]
    · have hga : matchesCurrent pk v
          (if matchesCurrent pk v0 a then expireRow now a else a) = false := by
        by_cases hm0 : matchesCurrent pk v0 a
        · rw [if_pos hm0]
          simp [matchesCurrent, expireRow]
        · rw [if_neg hm0]
          simpa using hm
      rw [List.find?_cons_of_neg _ (by simp [hga]),
        List.find?_cons_of_neg _ hm]
      exact ih

/-- A successful row step makes the first current row for the row's own
(non-null) business key carry exactly the row's digest. -/
theorem processRow_establishes {pk : String} {attrs : List String}
    {now : String} {failAt : Nat → Bool} {st st' : LoopState} {row : Row}
    {v0 : Value} (hv0 : v0 ≠ Value.null)
    (hpk : lookupVal row pk = some v0)
    (h : processRow pk attrs now failAt st row = Except.ok st') :
    ∃ tgt, st'.hist.find? (matchesCurrent pk v0) = some tgt ∧
      generate_hash row attrs = some tgt.row_hash := by
  obtain ⟨v0', hsh, hpk', hh, hcase⟩ := processRow_ok_cases h
  rw [hpk] at hpk'
  injection hpk' with hv
  subst hv
  rcases hcase with ⟨hfind, hhist, -, -, -⟩ | ⟨tgt, hfind, hne, hhist, -, -, -⟩
    | ⟨tgt, hfind, heq, hhist, -, -, -⟩
  · refine ⟨mkNewRow row hsh now, ?_, ?_⟩
    · rw [hhist, List.find?_append, hfind]
      simp [List.find?_cons_of_pos _ (matchesCurrent_mkNewRow hv0 hpk)]
    · rw [hh]
      rfl
  · refine ⟨mkNewRow row hsh now, ?_, ?_⟩
    · rw [hhist, List.find?_append, find?_map_update_self]
      simp [List.find?_cons_of_pos _ (matchesCurrent_mkNewRow hv0 hpk)]
    · rw [hh]
      rfl
  · refine ⟨tgt, ?_, ?_⟩
    · rw [hhist]
      exact hfind
    · rw [hh, heq]

/-- A successful row step leaves the current-row lookup of every other
non-null key unchanged. -/
theorem processRow_preserves_find? {pk : String} {attrs : List String}
    {now : String} {failAt : Nat → Bool} {st st' : LoopState} {row : Row}
    {v : Value} {tgt : HRow} (hv : v ≠ Value.null)
    (h : processRow pk attrs now failAt st row = Except.ok st')
    (hdiff : ∀ w, lookupVal row pk = some w → w ≠ v)
    (hfound : st.hist.find? (matchesCurrent pk v) = some tgt) :
    st'.hist.find? (matchesCurrent pk v) = some tgt := by
  obtain ⟨v0, hsh, hpk, hh, hcase⟩ := processRow_ok_cases h
  have hvv0 : v ≠ v0 := fun hc => (hdiff v0 hpk) (hc ▸ rfl)
  rcases hcase with ⟨hfind, hhist, -, -, -⟩ | ⟨tgt', hfind, hne, hhist, -, -, -⟩
    | ⟨tgt', hfind, heq, hhist, -, -, -⟩
  · rw [hhist, List.find?_append, hfound]
    rfl
  · rw [hhist, List.find?_append, find?_map_update_of_ne hv hvv0, hfound]
    rfl
  · rw [hhist]
    exact hfound

/-- The loop preserves the current-row lookup of any key not touched by the
remaining rows. -/
theorem processRows_preserve_find? {pk : String} {attrs : List String}
    {now : String} {failAt : Nat → Bool} :
    ∀ (rows : List Row) (st st' : LoopState),
    processRows pk attrs now failAt st rows = Except.ok st' →
    ∀ (v : Value) (tgt : HRow), v ≠ Value.null →
    (∀ row ∈ rows, ∀ w, lookupVal row pk = some w → w ≠ v) →
    st.hist.find? (matchesCurrent pk v) = some tgt →
    st'.hist.find? (matchesCurrent pk v) = some tgt := by
  intro rows
  induction rows with
  | nil =>
    intro st st' h v tgt _ _ hfound
    unfold processRows at h
    injection h with h
    subst h
    exact hfound
  | cons r rs ih =>
    intro st st' h v tgt hv hdiff hfound
    unfold processRows at h
    cases hp : processRow pk attrs now failAt st r with
    | error e => rw [hp] at h; exact Except.noConfusion h
    | ok st1 =>
      rw [hp] at h
      exact ih st1 st' h v tgt hv
        (fun row hm => hdiff row (List.mem_cons_of_mem _ hm))
        (processRow_preserves_find? hv hp
          (hdiff r (List.mem_cons_self r rs)) hfound)

/-- After a successful run over pairwise-distinct non-null business keys,
the first current row of each processed key stores exactly that row's
digest. -/
theorem processRows_establish {pk : String} {attrs : List String}
    {now : String} {failAt : Nat → Bool} :
    ∀ (rows : List Row) (st st' : LoopState),
    processRows pk attrs now failAt st rows = Except.ok st' →
    (∀ row ∈ rows, ∀ v, lookupVal row pk = some v → v ≠ Value.null) →
    rows.Pairwise (fun r1 r2 => lookupVal r1 pk ≠ lookupVal r2 pk) →
    ∀ row ∈ rows, ∃ v0 tgt, lookupVal row pk = some v0 ∧
      st'.hist.find? (matchesCurrent pk v0) = some tgt ∧
      generate_hash row attrs = some tgt.row_hash := by
  intro rows
  induction rows with
  | nil =>
    intro st st' _ _ _ row hm
    exact absurd hm (List.not_mem_nil row)
  | cons r rs ih =>
    intro st st' h hkeys hpair row hm
    unfold processRows at h
    cases hp : processRow pk attrs now failAt st r with
    | error e => rw [hp] at h; exact Except.noConfusion h
    | ok st1 =>
      rw [hp] at h
      rcases List.mem_cons.1 hm with rfl | hm'
      · obtain ⟨v0, hsh, hpk, hh, -⟩ := processRow_ok_cases hp
        have hv0 : v0 ≠ Value.null :=
          hkeys row (List.mem_cons_self row rs) v0 hpk
        obtain ⟨tgt, hfind, hhash⟩ := processRow_establishes hv0 hpk hp
        refine ⟨v0, tgt, hpk, ?_, hhash⟩
        refine processRows_preserve_find? rs st1 st' h v0 tgt hv0 ?_ hfind
        intro row' hm' w hw hwv
        have hrel := (List.pairwise_cons.1 hpair).1 row' hm'
        rw [hpk, hw, hwv] at hrel
        exact hrel rfl
      · exact ih st1 st' h
          (fun row' hm'' => hkeys row' (List.mem_cons_of_mem _ hm''))
          (List.pairwise_cons.1 hpair).2 row hm'

/-- When every source row's key already has, as its first current row, a
row storing exactly the row's digest, the whole loop classifies everything
UNCHANGED and writes nothing. -/
theorem processRows_unchanged {pk : String} {attrs : List String}
    {now : String} :
    ∀ (rows : List Row) (st : LoopState),
    (∀ row ∈ rows, ∃ v0 tgt, lookupVal row pk = some v0 ∧
      st.hist.find? (matchesCurrent pk v0) = some tgt ∧
      generate_hash row attrs = some tgt.row_hash) →
    ∃ st', processRows pk attrs now noFail st rows = Except.ok st' ∧
      st'.hist = st.hist ∧ st'.new_count = st.new_count ∧
      st'.changed_count = st.changed_count ∧
      st'.unchanged_count = st.unchanged_count + rows.length := by
  intro rows
  induction rows with
  | nil =>
    intro st _
    exact ⟨st, rfl, rfl, rfl, rfl, by simp⟩
  | cons r rs ih =>
    intro st hrows
    obtain ⟨v0, tgt, hpk, hfind, hh⟩ := hrows r (List.mem_cons_self r rs)
    have hstep : processRow pk attrs now noFail st r = Except.ok
        { st with
          opCount := st.opCount + 1,
          unchanged_count := st.unchanged_count + 1 } := by
      simp [processRow, hpk, hh, hfind, noFail]
    obtain ⟨st', hrun, h1, h2, h3, h4⟩ := ih
      { st with
        opCount := st.opCount + 1,
        unchanged_count := st.unchanged_count + 1 }
      (fun row hm => hrows row (List.mem_cons_of_mem _ hm))
    refine ⟨st', ?_, h1, h2, h3, ?_⟩
    · unfold processRows
      rw [hstep]
      exact hrun
    · simp only [List.length_cons]
      simp at h4
      omega

/-- Counterexample to C8 as stated: the claim quantifies over every source
snapshot, but a snapshot containing a null-keyed row is re-inserted on
every run (a SQL `NULL` key never matches the lookup): the second run over
the identical source has `new_count = 1`, not `0`, and grows the table. -/
theorem C8_counterexample :
    (run_scd_pipeline ⟨"id", ["a"]⟩ nullKeySrc [] "t1" noFail).2
        = Except.ok
          { new_count := 1, changed_count := 0, unchanged_count := 0,
            total_count := 1 } ∧
      (run_scd_pipeline ⟨"id", ["a"]⟩ nullKeySrc
          (run_scd_pipeline ⟨"id", ["a"]⟩ nullKeySrc [] "t1" noFail).1
          "t2" noFail).2
        = Except.ok
          { new_count := 1, changed_count := 0, unchanged_count := 0,
            total_count := 1 } ∧
      (run_scd_pipeline ⟨"id", ["a"]⟩ nullKeySrc
          (run_scd_pipeline ⟨"id", ["a"]⟩ nullKeySrc [] "t1" noFail).1
          "t2" noFail).1.length = 2 := by
  decide

/-- C8 (amended): for a source snapshot whose business keys are non-null
and pairwise distinct, a second run against the unchanged snapshot after a
first successful run classifies every row UNCHANGED: the summary is
`⟨0, 0, n, n⟩` and the history table is byte-for-byte unchanged. -/
theorem C8_idempotence (cfg : Config) (src : List Row) (hist0 : List HRow)
    (now1 now2 : String) (s1 : Summary)
    (hkeys : ∀ row ∈ src, ∀ v,
      lookupVal row cfg.primary_key = some v → v ≠ Value.null)
    (hdist : src.Pairwise (fun r1 r2 =>
      lookupVal r1 cfg.primary_key ≠ lookupVal r2 cfg.primary_key))
    (hok1 : (run_scd_pipeline cfg src hist0 now1 noFail).2 = Except.ok s1) :
    (run_scd_pipeline cfg src
        (run_scd_pipeline cfg src hist0 now1 noFail).1 now2 noFail).2
        = Except.ok
          { new_count := 0, changed_count := 0,
            unchanged_count := src.length, total_count := src.length } ∧
      (run_scd_pipeline cfg src
          (run_scd_pipeline cfg src hist0 now1 noFail).1 now2 noFail).1
        = (run_scd_pipeline cfg src hist0 now1 noFail).1 := by
  unfold run_scd_pipeline at hok1 ⊢
  cases hp1 : processRows cfg.primary_key cfg.changing_attributes now1 noFail
      { hist := hist0, opCount := 0, new_count := 0, changed_count := 0,
        unchanged_count := 0 } src with
  | error e => rw [hp1] at hok1; exact Except.noConfusion hok1
  | ok st1 =>
    have hest := processRows_establish src _ st1 hp1 hkeys hdist
    obtain ⟨st2, hrun2, hh1, hh2, hh3, hh4⟩ :=
      @processRows_unchanged cfg.primary_key cfg.changing_attributes now2 src
        { hist := st1.hist, opCount := 0, new_count := 0, changed_count := 0,
          unchanged_count := 0 }
        (fun row hm => hest row hm)
    dsimp only
    rw [hrun2]
    dsimp only
    simp only [] at hh1 hh2 hh3 hh4
    constructor
    · rw [hh2, hh3, hh4]
      simp
    · exact hh1

/-- Witness for C8 (amended): re-running the concrete three-row snapshot
right after a first successful run classifies all three rows UNCHANGED and
leaves the table untouched. -/
theorem C8_idempotence_witness :
    (run_scd_pipeline ⟨"id", ["a"]⟩ threeSrc
          (run_scd_pipeline ⟨"id", ["a"]⟩ threeSrc threeHist "t1" noFail).1
          "t2" noFail).2
        = Except.ok
          { new_count := 0, changed_count := 0,
            unchanged_count := threeSrc.length,
            total_count := threeSrc.length } ∧
      (run_scd_pipeline ⟨"id", ["a"]⟩ threeSrc
          (run_scd_pipeline ⟨"id", ["a"]⟩ threeSrc threeHist "t1" noFail).1
          "t2" noFail).1
        = (run_scd_pipeline ⟨"id", ["a"]⟩ threeSrc threeHist "t1" noFail).1 :=
  C8_idempotence ⟨"id", ["a"]⟩ threeSrc threeHist "t1" "t2" ⟨1, 1, 1, 3⟩
    (fun row hr v hv => by
      simp only [threeSrc, List.mem_cons, List.not_mem_nil, or_false] at hr
      rcases hr with rfl | rfl | rfl <;>
        (simp [lookupVal, List.lookup] at hv; subst hv; decide))
    (by decide)
    (by decide)

/-! ## C6 and C7: the fingerprint function -/

theorem md5Bytes_length (msg : List Nat) : (md5Bytes msg).length = 16 := by
  unfold md5Bytes
  generalize (chunksOf64 (md5Pad msg)).foldl md5Chunk
    (0x67452301, 0xefcdab89, 0x98badcfe, 0x10325476) = q
  obtain ⟨a, b, c, d⟩ := q
  simp [wordLEBytes]

theorem bytesToHex_length (bytes : List Nat) :
    (bytesToHex bytes).length = 2 * bytes.length := by
  induction bytes with
  | nil => rfl
  | cons b l ih =>
    simp only [bytesToHex, List.flatMap_cons] at ih ⊢
    simp at ih ⊢
    omega

/-- The hexdigest is fixed-length: 32 characters for every input. -/
theorem md5Hex_length (s : String) : (md5Hex s).length = 32 := by
  show (bytesToHex (md5Bytes (utf8Encode s))).length = 32
  rw [bytesToHex_length, md5Bytes_length]

theorem mapM_lookup_eq_map {row : Row} :
    ∀ {attributes : List String},
    (∀ a ∈ attributes, (lookupVal row a).isSome) →
    attributes.mapM (fun attr => lookupVal row attr)
      = some (attributes.map (fun a => (lookupVal row a).getD Value.null)) := by
  intro attributes
  induction attributes with
  | nil => intro _; rfl
  | cons a l ih =>
    intro h
    rw [List.mapM_cons]
    obtain ⟨v, hv⟩ :=
      Option.isSome_iff_exists.1 (h a (List.mem_cons_self a l))
    rw [hv, ih (fun b hb => h b (List.mem_cons_of_mem a hb))]
    simp [hv]

/-- When every monitored attribute is present, the combined pre-hash string
is the hyphen-join of the stringified monitored values in configured
order. -/
theorem combined_string_formula (row : Row) (attributes : List String)
    (h : ∀ a ∈ attributes, (lookupVal row a).isSome) :
    combined_string row attributes
      = some (joinHyphen (attributes.map
          (fun a => pyStr ((lookupVal row a).getD Value.null)))) := by
  unfold combined_string
  rw [mapM_lookup_eq_map h]
  show some (joinHyphen
    ((attributes.map (fun a => (lookupVal row a).getD Value.null)).map pyStr))
    = _
  rw [List.map_map]
  rfl

/-- When every monitored attribute is present, `generate_hash` is the MD5
hexdigest of the combined pre-hash string. -/
theorem generate_hash_formula (row : Row) (attributes : List String)
    (h : ∀ a ∈ attributes, (lookupVal row a).isSome) :
    generate_hash row attributes
      = some (md5Hex (joinHyphen (attributes.map
          (fun a => pyStr ((lookupVal row a).getD Value.null))))) := by
  unfold generate_hash
  rw [combined_string_formula row attributes h]
  rfl

/-- C6: for every record and monitored-attribute list fully present in the
record, `generate_hash` returns the fixed-length (32-character) MD5
hexdigest of the stringified monitored values joined by hyphens in the
configured order, and the digest is a function of the monitored values
alone: any two calls on records with identical monitored-attribute values
return the identical digest string. -/
theorem C6_fingerprint_digest (row : Row) (attributes : List String)
    (hpres : ∀ a ∈ attributes, (lookupVal row a).isSome) :
    generate_hash row attributes
        = some (md5Hex (joinHyphen (attributes.map
            (fun a => pyStr ((lookupVal row a).getD Value.null))))) ∧
      (∀ s : String, generate_hash row attributes = some s →
        s.length = 32) ∧
      (∀ row' : Row,
        (∀ a ∈ attributes, lookupVal row' a = lookupVal row a) →
        generate_hash row' attributes = generate_hash row attributes) := by
  refine ⟨generate_hash_formula row attributes hpres, ?_, ?_⟩
  · intro s hs
    rw [generate_hash_formula row attributes hpres] at hs
    injection hs with hs
    rw [← hs]
    exact md5Hex_length _
  · intro row' hagree
    have hpres' : ∀ a ∈ attributes, (lookupVal row' a).isSome := by
      intro a ha
      rw [hagree a ha]
      exact hpres a ha
    rw [generate_hash_formula row' attributes hpres',
      generate_hash_formula row attributes hpres,
      List.map_congr_left (fun a ha => by rw [hagree a ha])]

/-- Witness for C6: the digest of the concrete row `rowK1` is literally the
MD5 hexdigest of its joined stringified monitored values. -/
theorem C6_fingerprint_digest_witness :
    generate_hash rowK1 ["a"]
      = some (md5Hex (joinHyphen (["a"].map
          (fun a => pyStr ((lookupVal rowK1 a).getD Value.null))))) :=
  (C6_fingerprint_digest rowK1 ["a"] (by decide)).1

/-- `rowK1` with its monitored attribute changed from the integer `1` to
the string `"1"` — a different value with the same stringification. -/
def rowK1Str : Row := [("id", Value.int 1), ("a", Value.str "1")]

/-- Counterexample to C7: changing the monitored attribute `a` of `rowK1`
from the INTEGER value `1` to the distinct TEXT value `"1"` leaves the
digest unchanged, because Python's `str()` collapses both to `"1"` before
hashing. -/
theorem C7_counterexample :
    lookupVal rowK1 "a" ≠ lookupVal rowK1Str "a" ∧
      generate_hash rowK1 ["a"] = generate_hash rowK1Str ["a"] := by
  decide

theorem joinHyphen_cons_of_ne_nil (s : String) {l : List String}
    (h : l ≠ []) : joinHyphen (s :: l) = s ++ "-" ++ joinHyphen l := by
  cases l with
  | nil => exact absurd rfl h
  | cons y ys => rfl

/-- Changing exactly one component of the hyphen-join, keeping all others,
always changes the joined string. -/
theorem joinHyphen_ne_of_single_change :
    ∀ (xs : List String) (s1 s2 : String) (ys : List String), s1 ≠ s2 →
    joinHyphen (xs ++ s1 :: ys) ≠ joinHyphen (xs ++ s2 :: ys) := by
  intro xs
  induction xs with
  | nil =>
    intro s1 s2 ys hne
    cases ys with
    | nil => simpa [joinHyphen] using hne
    | cons y ys =>
      rw [List.nil_append, List.nil_append,
        joinHyphen_cons_of_ne_nil s1 (by simp),
        joinHyphen_cons_of_ne_nil s2 (by simp)]
      intro hc
      apply hne
      have hd := congrArg String.data hc
      simp only [String.data_append] at hd
      have h1 := List.append_inj_left' hd rfl
      have h2 := List.append_inj_left' h1 rfl
      exact String.ext h2
  | cons a xs ih =>
    intro s1 s2 ys hne
    rw [List.cons_append, List.cons_append,
      joinHyphen_cons_of_ne_nil a (by simp),
      joinHyphen_cons_of_ne_nil a (by simp)]
    intro hc
    apply ih s1 s2 ys hne
    have hd := congrArg String.data hc
    simp only [String.data_append] at hd
    exact String.ext (List.append_inj_right hd rfl)

/-- C7 (amended): the digest is a function of exactly the ordered list of
*stringified* monitored values.  Records that agree on the stringification
of every monitored attribute — in particular records differing only on
non-monitored attributes — receive the identical digest (so a changed
value whose `str()` is unchanged, e.g. `1` vs `"1"`, does not change it);
and changing the stringification of any single monitored attribute always
changes the combined pre-hash string fed to MD5. -/
theorem C7_digest_sensitivity (attributes : List String) (row row' : Row)
    (hpres : ∀ a ∈ attributes, (lookupVal row a).isSome)
    (hpres' : ∀ a ∈ attributes, (lookupVal row' a).isSome) :
    ((∀ a ∈ attributes, pyStr ((lookupVal row' a).getD Value.null)
        = pyStr ((lookupVal row a).getD Value.null)) →
      generate_hash row' attributes = generate_hash row attributes) ∧
    (∀ (xs ys : List String) (m : String), attributes = xs ++ m :: ys →
      (∀ a ∈ xs, lookupVal row' a = lookupVal row a) →
      (∀ a ∈ ys, lookupVal row' a = lookupVal row a) →
      pyStr ((lookupVal row' m).getD Value.null)
          ≠ pyStr ((lookupVal row m).getD Value.null) →
      combined_string row' attributes ≠ combined_string row attributes) := by
  constructor
  · intro hagree
    rw [generate_hash_formula row' attributes hpres',
      generate_hash_formula row attributes hpres,
      List.map_congr_left (fun a ha => hagree a ha)]
  · intro xs ys m hsplit hxs hys hm
    rw [combined_string_formula row' attributes hpres',
      combined_string_formula row attributes hpres]
    intro hc
    injection hc with hc
    subst hsplit
    have hxseq : xs.map (fun a => pyStr ((lookupVal row' a).getD Value.null))
        = xs.map (fun a => pyStr ((lookupVal row a).getD Value.null)) :=
      List.map_congr_left (fun a ha => by rw [hxs a ha])
    have hyseq : ys.map (fun a => pyStr ((lookupVal row' a).getD Value.null))
        = ys.map (fun a => pyStr ((lookupVal row a).getD Value.null)) :=
      List.map_congr_left (fun a ha => by rw [hys a ha])
    rw [List.map_append, List.map_append, List.map_cons, List.map_cons,
      hxseq, hyseq] at hc
    exact joinHyphen_ne_of_single_change
      (xs.map (fun a => pyStr ((lookupVal row a).getD Value.null)))
      (pyStr ((lookupVal row' m).getD Value.null))
      (pyStr ((lookupVal row m).getD Value.null))
      (ys.map (fun a => pyStr ((lookupVal row a).getD Value.null)))
      hm hc

/-- Witness for C7 (amended): a record differing from `rowK1` only on the
non-monitored attribute `id` keeps the digest, and the concrete rows whose
monitored stringifications are `"1"` vs `"2"` have different combined
pre-hash strings. -/
theorem C7_digest_sensitivity_witness :
    generate_hash [("id", Value.int 9), ("a", Value.int 1)] ["a"]
        = generate_hash rowK1 ["a"] ∧
      combined_string [("id", Value.int 1), ("a", Value.int 2)] ["a"]
        ≠ combined_string rowK1 ["a"] :=
  ⟨(C7_digest_sensitivity ["a"] rowK1
      [("id", Value.int 9), ("a", Value.int 1)] (by decide) (by decide)).1
      (by decide),
   (C7_digest_sensitivity ["a"] rowK1
      [("id", Value.int 1), ("a", Value.int 2)] (by decide) (by decide)).2
      [] [] "a" rfl (by simp) (by simp) (by decide)⟩
